import Mathlib

/-!
Shallow embedding of the image-to-collider pipeline of `bevy_collider_gen`
(files `src/collider/rapier2d.rs` and `src/abstract_collider/builder/from.rs`).

Coordinates are `f32` in the source; they are modelled as exact rationals
(`ℚ`), so every subtraction, comparison and absolute value in the embedded
code is the exact-arithmetic reading of the corresponding `f32` operation.
The constant `f32::EPSILON = 2⁻²³` is embedded exactly.

The boundary tracer (the external `edges` crate) and the physics-engine
collider constructors (`bevy_rapier2d` / `parry`) are not part of this
repository; they are modelled from the specification's interface contracts,
each such definition carrying a doc comment starting with
`Modelled from the spec:`.  Everything else is translated directly from the
Rust source.
-/

namespace BevyColliderGen

/-- Embedding of `bevy_math` `Vec2`: a 2-D point with `f32` components,
modelled over exact rationals. -/
structure Point where
  x : ℚ
  y : ℚ
deriving DecidableEq

/-- Embedding of the constant `f32::EPSILON = 2⁻²³` used by
`heights_from_points` as the x-column matching tolerance. -/
def eps : ℚ := 1 / 2 ^ 23

/-- Embedding of one iteration of the loop body of `heights_from_points`
(`src/collider/rapier2d.rs` lines 173-186): scan the accumulated `heights`
vector for the first element `e` with `(e.x - p.x).abs() <= f32::EPSILON`;
if found and `e.y < p.y`, replace it in place by `p` (the source's
`remove(i)` followed by `insert(i, p)`); if found and `¬ e.y < p.y`, keep
the vector unchanged; if no element matches, push `p` at the end. -/
def insertPoint (p : Point) : List Point → List Point
  | [] => [p]
  | e :: rest =>
    if |e.x - p.x| ≤ eps then
      (if e.y < p.y then p else e) :: rest
    else
      e :: insertPoint p rest

/-- Embedding of the `heights` accumulator of `heights_from_points` after
the whole `for` loop (`src/collider/rapier2d.rs` lines 171-186). -/
def heightsVec (points : List Point) : List Point :=
  points.foldl (fun acc p => insertPoint p acc) []

/-- Embedding of `heights_from_points` (`src/collider/rapier2d.rs` lines
170-189): run the accumulation loop, then map each kept point to its `y`
value. -/
def heights_from_points (points : List Point) : List ℚ :=
  (heightsVec points).map Point.y

/-- Embedding of the opaque `bevy_rapier2d` collider value: a tag plus the
geometry data handed to the physics backend. -/
inductive ColliderShape where
  | polylineShape (points : List Point)
  | convexPolylineShape (points : List Point)
  | convexHullShape (points : List Point)
  | heightfieldShape (heights : List ℚ) (scale : Point)
deriving DecidableEq

/-- Executable collinearity test: every triple of input points has zero
cross product, i.e. the whole point set is collinear (a zero-area hull). -/
def allCollinear (pts : List Point) : Bool :=
  pts.all fun a =>
    pts.all fun b =>
      pts.all fun c =>
        (b.x - a.x) * (c.y - a.y) - (b.y - a.y) * (c.x - a.x) == 0

/-- Modelled from the spec: `Collider::polyline` lives in the external
`bevy_rapier2d` backend, not in this repository.  Per §4.5 a polyline
synthesis always succeeds on any non-empty point sequence, with no
convexity requirement; the behaviour on an empty point sequence is not
specified and is modelled as an absent result. -/
def Collider.polyline (points : List Point) : Option ColliderShape :=
  if points = [] then none else some (ColliderShape.polylineShape points)

/-- Modelled from the spec: `Collider::convex_polyline` lives in the
external `bevy_rapier2d` backend, not in this repository.  Per §4.5 the
convex-polygon synthesis returns an explicit absent result exactly when
the input has fewer than 3 points or all points are collinear, and a shape
otherwise. -/
def Collider.convex_polyline (points : List Point) : Option ColliderShape :=
  if points.length < 3 ∨ allCollinear points = true then none
  else some (ColliderShape.convexPolylineShape points)

/-- Modelled from the spec: `Collider::convex_hull` lives in the external
`bevy_rapier2d` backend, not in this repository.  Per §4.5 the convex-hull
synthesis returns an explicit absent result exactly when the input has
fewer than 3 points or all points are collinear, and a shape otherwise. -/
def Collider.convex_hull (points : List Point) : Option ColliderShape :=
  if points.length < 3 ∨ allCollinear points = true then none
  else some (ColliderShape.convexHullShape points)

/-- Modelled from the spec: `Collider::heightfield` lives in the external
`bevy_rapier2d` backend; it packages the height array and the scale vector
into the heightfield shape descriptor of §3. -/
def Collider.heightfield (heights : List ℚ) (scale : Point) : ColliderShape :=
  ColliderShape.heightfieldShape heights scale

/-- Embedding of `heightfield_collider_from_points`
(`src/collider/rapier2d.rs` lines 163-167).  The source computes
`let x_scale = hf.len() - 1;` on `usize`; for an empty height array this
subtraction underflows (a panic under Rust's checked arithmetic), which is
modelled as an absent result.  Otherwise the collider is built from the
heights and the scale vector `Vec2::new(x_scale as f32, 1.0)`. -/
def heightfield_collider_from_points (v : List Point) : Option ColliderShape :=
  let hf := heights_from_points v
  if hf.length = 0 then none
  else some (Collider.heightfield hf (Point.mk ((hf.length - 1 : ℕ) : ℚ) 1))

/-- Modelled from the spec: the boundary tracer is the external `edges`
crate (`Edges::from(image)`), not part of this repository.  A value of
this structure records the four traced point sequences the repository's
collider functions consume: the merged single boundary and the per-region
boundaries, each in raw and in translated frames (§2, §4.2, §4.3). -/
structure Edges where
  single_image_edge_translated : List Point
  single_image_edge_raw : List Point
  multi_image_edge_translated : List (List Point)
  multi_image_edges_raw : List (List Point)

/-- Embedding of `single_polyline_collider_translated`
(`src/collider/rapier2d.rs` lines 10-13): trace, then
`Collider::polyline(e.single_image_edge_translated(), None)`. -/
def single_polyline_collider_translated (e : Edges) : Option ColliderShape :=
  Collider.polyline e.single_image_edge_translated

/-- Embedding of `single_polyline_collider_raw`
(`src/collider/rapier2d.rs` lines 18-21). -/
def single_polyline_collider_raw (e : Edges) : Option ColliderShape :=
  Collider.polyline e.single_image_edge_raw

/-- Embedding of `single_convex_polyline_collider_translated`
(`src/collider/rapier2d.rs` lines 26-29). -/
def single_convex_polyline_collider_translated (e : Edges) : Option ColliderShape :=
  Collider.convex_polyline e.single_image_edge_translated

/-- Embedding of `single_convex_polyline_collider_raw`
(`src/collider/rapier2d.rs` lines 34-37). -/
def single_convex_polyline_collider_raw (e : Edges) : Option ColliderShape :=
  Collider.convex_polyline e.single_image_edge_raw

/-- Embedding of `single_convex_hull_collider_translated`
(`src/collider/rapier2d.rs` lines 42-46). -/
def single_convex_hull_collider_translated (e : Edges) : Option ColliderShape :=
  Collider.convex_hull e.single_image_edge_translated

/-- Embedding of `single_convex_hull_collider_raw`
(`src/collider/rapier2d.rs` lines 51-55).  The source body reads
`let points = e.single_image_edge_translated();` — the raw variant calls
the translated tracer method, exactly as written on line 53. -/
def single_convex_hull_collider_raw (e : Edges) : Option ColliderShape :=
  Collider.convex_hull e.single_image_edge_translated

/-- Embedding of `single_heightfield_collider_translated`
(`src/collider/rapier2d.rs` lines 60-63). -/
def single_heightfield_collider_translated (e : Edges) : Option ColliderShape :=
  heightfield_collider_from_points e.single_image_edge_translated

/-- Embedding of `single_heightfield_collider_raw`
(`src/collider/rapier2d.rs` lines 68-71). -/
def single_heightfield_collider_raw (e : Edges) : Option ColliderShape :=
  heightfield_collider_from_points e.single_image_edge_raw

/-- Embedding of `multi_polyline_collider_translated`
(`src/collider/rapier2d.rs` lines 76-82): `rayon`'s ordered
`into_par_iter().map(..).collect()` over the per-region loops is modelled
as the order-preserving `List.map`. -/
def multi_polyline_collider_translated (e : Edges) : List (Option ColliderShape) :=
  e.multi_image_edge_translated.map Collider.polyline

/-- Embedding of `multi_polyline_collider_raw`
(`src/collider/rapier2d.rs` lines 87-93). -/
def multi_polyline_collider_raw (e : Edges) : List (Option ColliderShape) :=
  e.multi_image_edges_raw.map Collider.polyline

/-- Embedding of `multi_convex_polyline_collider_translated`
(`src/collider/rapier2d.rs` lines 98-104). -/
def multi_convex_polyline_collider_translated (e : Edges) : List (Option ColliderShape) :=
  e.multi_image_edge_translated.map Collider.convex_polyline

/-- Embedding of `multi_convex_polyline_collider_raw`
(`src/collider/rapier2d.rs` lines 109-115). -/
def multi_convex_polyline_collider_raw (e : Edges) : List (Option ColliderShape) :=
  e.multi_image_edges_raw.map Collider.convex_polyline

/-- Embedding of `multi_heightfield_collider_translated`
(`src/collider/rapier2d.rs` lines 120-126). -/
def multi_heightfield_collider_translated (e : Edges) : List (Option ColliderShape) :=
  e.multi_image_edge_translated.map heightfield_collider_from_points

/-- Embedding of `multi_heightfield_collider_raw`
(`src/collider/rapier2d.rs` lines 131-137). -/
def multi_heightfield_collider_raw (e : Edges) : List (Option ColliderShape) :=
  e.multi_image_edges_raw.map heightfield_collider_from_points

/-- Embedding of `multi_convex_hull_collider_translated`
(`src/collider/rapier2d.rs` lines 142-148). -/
def multi_convex_hull_collider_translated (e : Edges) : List (Option ColliderShape) :=
  e.multi_image_edge_translated.map Collider.convex_hull

/-- Embedding of `multi_convex_hull_collider_raw`
(`src/collider/rapier2d.rs` lines 153-159). -/
def multi_convex_hull_collider_raw (e : Edges) : List (Option ColliderShape) :=
  e.multi_image_edges_raw.map Collider.convex_hull

/-- Spec-side definition (§4.4, the words of the specification, for
comparison with the embedded code): the distinct values of a list in the
order they are first encountered while scanning left to right. -/
def specColumnOrder (xs : List ℚ) : List ℚ :=
  xs.foldl (fun acc x => if x ∈ acc then acc else acc ++ [x]) []

/-- Embedding of the pixel-format information of a `bevy_render` `Image`
that the mask conversion inspects: whether the format carries an alpha
channel or a luminance channel usable as opacity (§4.1, §6). -/
structure PixelFormat where
  has_alpha : Bool
  has_luminance : Bool
deriving DecidableEq

/-- A format carries a usable opacity channel iff it has an alpha channel
or a luminance channel (§4.1). -/
def PixelFormat.hasOpacity (f : PixelFormat) : Bool :=
  f.has_alpha || f.has_luminance

/-- Embedding of the engine `Image` as the mask conversion sees it: its
dimensions, its pixel format, and the per-pixel opacity samples read
through the format's opacity channel. -/
structure Image where
  width : ℕ
  height : ℕ
  format : PixelFormat
  opacity : List ℚ
deriving DecidableEq

/-- Embedding of `binary_image::bevy::IntoBinaryImageError`: the format
error raised when the image's pixel layout carries no opacity data. -/
inductive IntoBinaryImageError where
  | unsupportedFormat (format : PixelFormat)
deriving DecidableEq

/-- Embedding of `edges::binary_image::BinaryImage`: the boolean occupancy
mask of §3 (`PixelMask`). -/
structure BinaryImage where
  width : ℕ
  height : ℕ
  pixels : List Bool
deriving DecidableEq

/-- Modelled from the spec: `BinaryImage::try_from(&Image)` lives in the
external `edges` crate, not in this repository.  Per §4.1 and §6 the
conversion fails with a format error exactly when the image lacks an alpha
or equivalent opacity channel; otherwise a pixel is opaque iff its opacity
sample is strictly greater than zero. -/
def BinaryImage.tryFrom (img : Image) : Except IntoBinaryImageError BinaryImage :=
  if img.format.hasOpacity then
    Except.ok (BinaryImage.mk img.width img.height
      (img.opacity.map fun a => decide (0 < a)))
  else
    Except.error (IntoBinaryImageError.unsupportedFormat img.format)

/-- Embedding of `abstract_collider::Builder`: a wrapper holding the image
the collider builder will work on. -/
structure Builder (α : Type) where
  image : α

/-- Embedding of `Builder::new`. -/
def Builder.new {α : Type} (i : α) : Builder α :=
  Builder.mk i

/-- Embedding of `impl TryFrom<&Image> for Builder<BinaryImage>`
(`src/abstract_collider/builder/from.rs` lines 19-24):
`BinaryImage::try_from(image).map(Self::new)`. -/
def builder_try_from_image (img : Image) : Except IntoBinaryImageError (Builder BinaryImage) :=
  (BinaryImage.tryFrom img).map Builder.new

/-! Helper lemmas about the heights accumulation loop. -/

lemma eps_pos : (0 : ℚ) < eps := by
  norm_num [eps]

lemma insertPoint_length_pos (p : Point) (acc : List Point) :
    0 < (insertPoint p acc).length := by
  cases acc with
  | nil => simp [insertPoint]
  | cons e rest =>
    unfold insertPoint
    by_cases h : |e.x - p.x| ≤ eps <;> simp [h]

lemma foldl_insertPoint_length_pos :
    ∀ (l acc : List Point), 0 < acc.length →
      0 < (List.foldl (fun a p => insertPoint p a) acc l).length := by
  intro l
  induction l with
  | nil => intro acc h; simpa using h
  | cons p rest ih =>
    intro acc _
    simpa [List.foldl] using ih (insertPoint p acc) (insertPoint_length_pos p acc)

lemma heightsVec_length_pos (points : List Point) (h : points ≠ []) :
    0 < (heightsVec points).length := by
  cases points with
  | nil => exact absurd rfl h
  | cons p rest =>
    unfold heightsVec
    simpa [List.foldl] using
      foldl_insertPoint_length_pos rest (insertPoint p []) (insertPoint_length_pos p [])

lemma heightfield_some_iff (v : List Point) :
    (heightfield_collider_from_points v).isSome = true ↔ v ≠ [] := by
  constructor
  · intro h hv
    subst hv
    simp [heightfield_collider_from_points, heights_from_points, heightsVec] at h
  · intro hv
    have hpos := heightsVec_length_pos v hv
    have hne : ¬ (heights_from_points v).length = 0 := by
      simp only [heights_from_points, List.length_map]
      omega
    simp [heightfield_collider_from_points, hne]

/-- C1: the specification and the function's own doc comment say the
heightfield builder keeps, within each x column, the point with minimal y
(the topmost point), so that the heights for the scanned points
(0,3),(0,1),(1,2),(2,0) would be [1,2,0].  Evaluating the embedded source
shows the loop keeps the point with the largest y instead (it replaces the
stored point exactly when `element.y < p.y`), producing [3,2,0]. -/
theorem heights_from_points_spec_example_eval :
    heights_from_points [⟨0, 3⟩, ⟨0, 1⟩, ⟨1, 2⟩, ⟨2, 0⟩] = [3, 2, 0] ∧
    heights_from_points [⟨0, 3⟩, ⟨0, 1⟩, ⟨1, 2⟩, ⟨2, 0⟩] ≠ [1, 2, 0] := by
  constructor
  · norm_num [heights_from_points, heightsVec, insertPoint, eps, abs_le]
  · norm_num [heights_from_points, heightsVec, insertPoint, eps, abs_le]

/-- C2 counterexample: on a fully transparent image the traced edge point
list is empty, and both single heightfield colliders fail to complete
(the source computes `hf.len() - 1` on `usize`, which underflows on the
empty height array), instead of yielding an empty shape. -/
theorem heightfield_collider_empty_input_fails :
    single_heightfield_collider_raw (Edges.mk [] [] [] []) = none ∧
    single_heightfield_collider_translated (Edges.mk [] [] [] []) = none := by
  constructor <;> rfl

/-- C2 (amended): the heightfield colliders complete exactly on a
non-empty traced edge point list; for the empty list the length-minus-one
computation in `heightfield_collider_from_points` underflows and no
collider is produced, so empty input does not propagate to an empty shape
through the heightfield path. -/
theorem heightfield_collider_completes_iff_nonempty (e : Edges) :
    ((single_heightfield_collider_raw e).isSome = true ↔
      e.single_image_edge_raw ≠ []) ∧
    ((single_heightfield_collider_translated e).isSome = true ↔
      e.single_image_edge_translated ≠ []) :=
  ⟨heightfield_some_iff _, heightfield_some_iff _⟩

/-- C3: `single_convex_hull_collider_raw` returns the same result as
`single_convex_hull_collider_translated` for every traced image: both
bodies compute the convex hull of `single_image_edge_translated()`, so the
raw variant never operates on the untranslated point sequence. -/
theorem single_convex_hull_raw_eq_translated (e : Edges) :
    single_convex_hull_collider_raw e = single_convex_hull_collider_translated e :=
  rfl

/-- C8: every multi-shape synthesis function returns exactly one result
per traced region loop, in the original region order, and equals the
sequential map of the corresponding per-loop synthesis over the loops
(`rayon`'s ordered parallel collect, modelled as `List.map`, is
scheduling-independent). -/
theorem multi_colliders_eq_map_of_single (e : Edges) (i : ℕ) :
    (multi_polyline_collider_translated e).length = e.multi_image_edge_translated.length ∧
    (multi_polyline_collider_translated e)[i]? =
      (e.multi_image_edge_translated[i]?).map Collider.polyline ∧
    (multi_polyline_collider_raw e).length = e.multi_image_edges_raw.length ∧
    (multi_polyline_collider_raw e)[i]? =
      (e.multi_image_edges_raw[i]?).map Collider.polyline ∧
    (multi_convex_polyline_collider_translated e).length = e.multi_image_edge_translated.length ∧
    (multi_convex_polyline_collider_translated e)[i]? =
      (e.multi_image_edge_translated[i]?).map Collider.convex_polyline ∧
    (multi_convex_polyline_collider_raw e).length = e.multi_image_edges_raw.length ∧
    (multi_convex_polyline_collider_raw e)[i]? =
      (e.multi_image_edges_raw[i]?).map Collider.convex_polyline ∧
    (multi_heightfield_collider_translated e).length = e.multi_image_edge_translated.length ∧
    (multi_heightfield_collider_translated e)[i]? =
      (e.multi_image_edge_translated[i]?).map heightfield_collider_from_points ∧
    (multi_heightfield_collider_raw e).length = e.multi_image_edges_raw.length ∧
    (multi_heightfield_collider_raw e)[i]? =
      (e.multi_image_edges_raw[i]?).map heightfield_collider_from_points ∧
    (multi_convex_hull_collider_translated e).length = e.multi_image_edge_translated.length ∧
    (multi_convex_hull_collider_translated e)[i]? =
      (e.multi_image_edge_translated[i]?).map Collider.convex_hull ∧
    (multi_convex_hull_collider_raw e).length = e.multi_image_edges_raw.length ∧
    (multi_convex_hull_collider_raw e)[i]? =
      (e.multi_image_edges_raw[i]?).map Collider.convex_hull := by
  simp [multi_polyline_collider_translated, multi_polyline_collider_raw,
    multi_convex_polyline_collider_translated, multi_convex_polyline_collider_raw,
    multi_heightfield_collider_translated, multi_heightfield_collider_raw,
    multi_convex_hull_collider_translated, multi_convex_hull_collider_raw,
    List.getElem?_map]

/-- C4 counterexample: the column matching is a tolerance test against
`f32::EPSILON`, not exact equality — the points (0,0) and (2⁻²³,1) have
unequal x coordinates yet land in the same height column (one column is
kept, not two). -/
theorem columns_merge_points_with_unequal_x :
    (Point.mk 0 0).x ≠ (Point.mk eps 1).x ∧
    (heightsVec [Point.mk 0 0, Point.mk eps 1]).length = 1 := by
  constructor
  · norm_num [eps]
  · norm_num [heightsVec, insertPoint, eps, abs_le]

/-- C4 (amended): two input points are assigned to the same height column
iff the later point's x is within `f32::EPSILON` of the stored column
representative's x — for a two-point input, iff `|p.x - q.x| ≤ ε` — a
tolerance bucket, not exact equality (exactly equal x values still always
share a column, since `0 ≤ ε`). -/
theorem two_points_same_column_iff_within_eps (p q : Point) :
    (heightsVec [p, q]).length = 1 ↔ |p.x - q.x| ≤ eps := by
  unfold heightsVec
  by_cases h : |p.x - q.x| ≤ eps
  · simp [List.foldl, insertPoint, h]
  · simp [List.foldl, insertPoint, h]

/-- C5: convex-polygon and convex-hull synthesis return an absent result
(`none`, not an error and not a degenerate shape) exactly when the input
has fewer than 3 points or all input points are collinear; in particular
the empty point set and any 2-point set yield an absent result. -/
theorem convex_synthesis_absent_iff_degenerate (e : Edges) (p q : Point) :
    (single_convex_hull_collider_translated e = none ↔
      (e.single_image_edge_translated.length < 3 ∨
        allCollinear e.single_image_edge_translated = true)) ∧
    (single_convex_polyline_collider_translated e = none ↔
      (e.single_image_edge_translated.length < 3 ∨
        allCollinear e.single_image_edge_translated = true)) ∧
    Collider.convex_hull [] = none ∧
    Collider.convex_polyline [] = none ∧
    Collider.convex_hull [p, q] = none ∧
    Collider.convex_polyline [p, q] = none := by
  refine ⟨?_, ?_, ?_, ?_, ?_, ?_⟩
  · unfold single_convex_hull_collider_translated Collider.convex_hull
    by_cases h : (e.single_image_edge_translated.length < 3 ∨
        allCollinear e.single_image_edge_translated = true) <;> simp [h]
  · unfold single_convex_polyline_collider_translated Collider.convex_polyline
    by_cases h : (e.single_image_edge_translated.length < 3 ∨
        allCollinear e.single_image_edge_translated = true) <;> simp [h]
  · rfl
  · rfl
  · simp [Collider.convex_hull]
  · simp [Collider.convex_polyline]

/-- C6: for every non-empty input point list the heightfield descriptor is
produced, its height array is exactly `heights_from_points`, and its
horizontal scale is the number of emitted height columns minus one
(`x_scale = hf.len() - 1`), paired with a vertical scale of 1. -/
theorem heightfield_x_scale_eq_columns_sub_one (v : List Point) (h : v ≠ []) :
    heightfield_collider_from_points v =
      some (Collider.heightfield (heights_from_points v)
        (Point.mk (((heights_from_points v).length - 1 : ℕ) : ℚ) 1)) := by
  have hpos := heightsVec_length_pos v h
  have hne : ¬ (heights_from_points v).length = 0 := by
    simp only [heights_from_points, List.length_map]
    omega
  simp [heightfield_collider_from_points, hne]

/-- C6 witness: the single-point input produces one column, height 7, and
x_scale 0 = 1 - 1. -/
theorem heightfield_x_scale_witness :
    ([Point.mk 5 7] : List Point) ≠ [] ∧
    heightfield_collider_from_points [Point.mk 5 7] =
      some (ColliderShape.heightfieldShape [7] (Point.mk 0 1)) := by
  have h := heightfield_x_scale_eq_columns_sub_one [Point.mk 5 7] (by simp)
  refine ⟨by simp, ?_⟩
  rw [h]
  norm_num [heights_from_points, heightsVec, insertPoint, Collider.heightfield,
    List.foldl]

/-- C9: polyline synthesis always succeeds with no convexity requirement:
whenever the traced edge point sequence is non-empty, the single polyline
colliders return the polyline over exactly those points, and every
non-empty per-region loop yields a polyline in the multi variants. -/
theorem polyline_collider_always_succeeds (e : Edges)
    (h₁ : e.single_image_edge_translated ≠ [])
    (h₂ : e.single_image_edge_raw ≠ []) :
    single_polyline_collider_translated e =
      some (ColliderShape.polylineShape e.single_image_edge_translated) ∧
    single_polyline_collider_raw e =
      some (ColliderShape.polylineShape e.single_image_edge_raw) ∧
    (∀ l ∈ e.multi_image_edge_translated, l ≠ [] →
      Collider.polyline l = some (ColliderShape.polylineShape l)) ∧
    (∀ l ∈ e.multi_image_edges_raw, l ≠ [] →
      Collider.polyline l = some (ColliderShape.polylineShape l)) := by
  refine ⟨?_, ?_, ?_, ?_⟩
  · simp [single_polyline_collider_translated, Collider.polyline, h₁]
  · simp [single_polyline_collider_raw, Collider.polyline, h₂]
  · intro l _ hl
    simp [Collider.polyline, hl]
  · intro l _ hl
    simp [Collider.polyline, hl]

/-- C9 witness: a concrete one-point edge trace yields a polyline collider
over that point. -/
theorem polyline_collider_witness :
    ([Point.mk 1 2] : List Point) ≠ [] ∧
    ([Point.mk 3 4] : List Point) ≠ [] ∧
    single_polyline_collider_translated (Edges.mk [Point.mk 1 2] [Point.mk 3 4] [] []) =
      some (ColliderShape.polylineShape [Point.mk 1 2]) :=
  ⟨by simp, by simp,
    (polyline_collider_always_succeeds (Edges.mk [Point.mk 1 2] [Point.mk 3 4] [] [])
      (by simp) (by simp)).1⟩

/-- C10: the fallible conversion from an engine image to the binary-mask
builder succeeds iff the image's pixel format carries an alpha or
luminance opacity channel, and when it fails it fails with precisely the
unsupported-format error for that format — the rejection happens at the
mask-construction boundary. -/
theorem builder_from_image_fails_iff_no_opacity (img : Image) :
    (builder_try_from_image img).isOk = img.format.hasOpacity ∧
    (img.format.hasOpacity = false →
      builder_try_from_image img =
        Except.error (IntoBinaryImageError.unsupportedFormat img.format)) := by
  unfold builder_try_from_image BinaryImage.tryFrom
  by_cases h : img.format.hasOpacity = true
  · simp [h, Except.map, Except.isOk, Except.toBool]
  · simp only [Bool.not_eq_true] at h
    simp [h, Except.map, Except.isOk, Except.toBool]

/-- C10 witness: a format with neither alpha nor luminance is rejected
with the unsupported-format error. -/
theorem builder_from_image_witness :
    (PixelFormat.mk false false).hasOpacity = false ∧
    builder_try_from_image (Image.mk 1 1 (PixelFormat.mk false false) [1]) =
      Except.error (IntoBinaryImageError.unsupportedFormat (PixelFormat.mk false false)) :=
  ⟨rfl,
    (builder_from_image_fails_iff_no_opacity
      (Image.mk 1 1 (PixelFormat.mk false false) [1])).2 rfl⟩

/-! Helper lemmas tracking the x projection of the heights accumulator. -/

lemma mem_insertPoint (p : Point) (acc : List Point) :
    ∀ e ∈ insertPoint p acc, e ∈ acc ∨ e = p := by
  induction acc with
  | nil => simp [insertPoint]
  | cons a rest ih =>
    intro e he
    unfold insertPoint at he
    by_cases hc : |a.x - p.x| ≤ eps
    · rw [if_pos hc] at he
      rcases List.mem_cons.mp he with h1 | h1
      · by_cases hy : a.y < p.y
        · rw [if_pos hy] at h1
          exact Or.inr h1
        · rw [if_neg hy] at h1
          exact Or.inl (by simp [h1])
      · exact Or.inl (List.mem_cons_of_mem a h1)
    · rw [if_neg hc] at he
      rcases List.mem_cons.mp he with h1 | h1
      · exact Or.inl (by simp [h1])
      · rcases ih e h1 with h2 | h2
        · exact Or.inl (List.mem_cons_of_mem a h2)
        · exact Or.inr h2

lemma insertPoint_map_x (p : Point) (acc : List Point)
    (h : ∀ e ∈ acc, e.x = p.x ∨ eps < |e.x - p.x|) :
    (insertPoint p acc).map Point.x =
      if p.x ∈ acc.map Point.x then acc.map Point.x
      else acc.map Point.x ++ [p.x] := by
  induction acc with
  | nil => simp [insertPoint]
  | cons e rest ih =>
    rcases h e (List.mem_cons_self e rest) with he | he
    · have h0 : |e.x - p.x| ≤ eps := by
        rw [he, sub_self, abs_zero]
        exact le_of_lt eps_pos
      have hmem : p.x ∈ (e :: rest).map Point.x := by simp [he.symm]
      rw [if_pos hmem]
      unfold insertPoint
      rw [if_pos h0]
      by_cases hy : e.y < p.y
      · rw [if_pos hy]
        simp [he]
      · rw [if_neg hy]
    · have h0 : ¬ |e.x - p.x| ≤ eps := not_le.mpr he
      have hne : p.x ≠ e.x := by
        intro heq
        rw [heq, sub_self, abs_zero] at he
        exact absurd he (not_lt.mpr (le_of_lt eps_pos))
      have ih' := ih fun a ha => h a (List.mem_cons_of_mem e ha)
      unfold insertPoint
      rw [if_neg h0]
      simp only [List.map_cons]
      rw [ih']
      by_cases hm : p.x ∈ rest.map Point.x
      · rw [if_pos hm, if_pos (by simp [hm])]
      · rw [if_neg hm, if_neg (by simp [List.mem_cons, hm, hne])]
        simp

lemma foldl_insert_map_x :
    ∀ (rest acc : List Point),
      (∀ e ∈ acc, ∀ p ∈ rest, e.x = p.x ∨ eps < |e.x - p.x|) →
      (∀ p ∈ rest, ∀ q ∈ rest, p.x = q.x ∨ eps < |p.x - q.x|) →
      (List.foldl (fun a p => insertPoint p a) acc rest).map Point.x =
        List.foldl (fun a x => if x ∈ a then a else a ++ [x])
          (acc.map Point.x) (rest.map Point.x) := by
  intro rest
  induction rest with
  | nil =>
    intro acc _ _
    simp
  | cons p rest ih =>
    intro acc h₁ h₂
    have hstep := insertPoint_map_x p acc
      fun a ha => h₁ a ha p (List.mem_cons_self p rest)
    have h₁' : ∀ a ∈ insertPoint p acc, ∀ q ∈ rest,
        a.x = q.x ∨ eps < |a.x - q.x| := by
      intro a ha q hq
      rcases mem_insertPoint p acc a ha with h3 | h3
      · exact h₁ a h3 q (List.mem_cons_of_mem p hq)
      · rw [h3]
        exact h₂ p (List.mem_cons_self p rest) q (List.mem_cons_of_mem p hq)
    have h₂' : ∀ a ∈ rest, ∀ b ∈ rest, a.x = b.x ∨ eps < |a.x - b.x| :=
      fun a ha b hb =>
        h₂ a (List.mem_cons_of_mem p ha) b (List.mem_cons_of_mem p hb)
    simp only [List.foldl_cons, List.map_cons]
    rw [ih (insertPoint p acc) h₁' h₂', hstep]

/-- C7 counterexample: the points (0,5) and (2⁻²³,7) have two distinct x
values, yet the emitted height array has length 1, not 2 — the tolerance
match merges x values within `f32::EPSILON` of a stored column, so the
height-array length is not the number of distinct x values in general. -/
theorem heights_length_ne_distinct_column_count :
    (heights_from_points [Point.mk 0 5, Point.mk eps 7]).length = 1 ∧
    (specColumnOrder (([Point.mk 0 5, Point.mk eps 7] : List Point).map Point.x)).length = 2 := by
  constructor
  · norm_num [heights_from_points, heightsVec, insertPoint, eps, abs_le]
  · norm_num [specColumnOrder, eps]

/-- C7 (amended): whenever the input's x values are pairwise either equal
or separated by more than `f32::EPSILON` (e.g. pixel-integral
coordinates), the emitted columns are exactly the distinct x values in
the order they are first encountered while scanning the input (not
resorted), and the height-array length equals the number of distinct x
values; without that separation, x values within `f32::EPSILON` of a
stored column merge into it. -/
theorem heights_first_encounter_order_under_separation (points : List Point)
    (hsep : ∀ p ∈ points, ∀ q ∈ points, p.x = q.x ∨ eps < |p.x - q.x|) :
    (heightsVec points).map Point.x = specColumnOrder (points.map Point.x) ∧
    (heights_from_points points).length =
      (specColumnOrder (points.map Point.x)).length := by
  have h := foldl_insert_map_x points [] (by simp) hsep
  have h1 : (heightsVec points).map Point.x = specColumnOrder (points.map Point.x) := by
    simpa [heightsVec, specColumnOrder] using h
  refine ⟨h1, ?_⟩
  calc (heights_from_points points).length
      = ((heightsVec points).map Point.x).length := by simp [heights_from_points]
    _ = (specColumnOrder (points.map Point.x)).length := by rw [h1]

/-- C7 witness: the integer-separated points (0,1),(1,2) produce columns
[0,1] in encounter order, of length 2. -/
theorem heights_first_encounter_order_witness :
    (∀ p ∈ [Point.mk 0 1, Point.mk 1 2], ∀ q ∈ [Point.mk 0 1, Point.mk 1 2],
      p.x = q.x ∨ eps < |p.x - q.x|) ∧
    (heightsVec [Point.mk 0 1, Point.mk 1 2]).map Point.x =
      specColumnOrder (([Point.mk 0 1, Point.mk 1 2] : List Point).map Point.x) ∧
    (heights_from_points [Point.mk 0 1, Point.mk 1 2]).length =
      (specColumnOrder (([Point.mk 0 1, Point.mk 1 2] : List Point).map Point.x)).length := by
  have hsep : ∀ p ∈ [Point.mk 0 1, Point.mk 1 2], ∀ q ∈ [Point.mk 0 1, Point.mk 1 2],
      p.x = q.x ∨ eps < |p.x - q.x| := by
    intro p hp q hq
    fin_cases hp <;> fin_cases hq <;> norm_num [eps]
  have h := heights_first_encounter_order_under_separation
    [Point.mk 0 1, Point.mk 1 2] hsep
  exact ⟨hsep, h.1, h.2⟩

end BevyColliderGen
